import Mathlib

/-!
Verification of the grounded citation search subsystem of LexTransition-AI
(src/engine/rag_engine.py): PDF ingestion into a page-level index, keyword
term-frequency search, optional embedding search, and the routing between
the two strategies.

Modelling conventions:
* Python strings are sequences of code points, modelled as `List Nat`
  (`PyStr`).  `str.lower` is modelled on the ASCII range (the range the
  corpora and queries in the repository exercise), `str.strip`/`str.split`
  on the whitespace code points Python treats as space.
* Machine state: the module-level globals `_INDEX`, `_INDEX_LOADED`,
  `_EMB_INDEX`, `_EMB_MODEL` become an explicit `EngineState`; the ghost
  field `modelLoads` counts successful `SentenceTransformer(...)`
  constructions, so that the memoization property is statable.
* Process environment: import-time feature probes (`pdfplumber`,
  `LTA_USE_EMBEDDINGS`, `sentence_transformers`, `engine.embeddings_engine`)
  become the boolean fields of `Env`; they are constants of a process.
  The external embeddings engine (`engine.embeddings_engine`, whose source
  is not part of the verified core) is abstracted by the oracle fields
  `extSearch` and `embRank`; its float similarity scores are not modelled,
  only which page records it would return.
* Nondeterminism of the runtime (whether the model constructor or the
  encode call raises) is made explicit as the `World` parameters.
* Fallible Python functions return `Option`; the formatted markdown result
  of a successful search is modelled by the ranked hit list it renders
  (`SearchResult`), since the rendering is a bijective presentation of
  that list.
-/

/-- A Python string: its sequence of code points. -/
abbrev PyStr := List Nat

/-- Code points of a Lean string literal, used to write concrete inputs. -/
def pstr (s : String) : PyStr := s.data.map Char.toNat

/-- The whitespace code points recognized by Python `str.strip` and
`str.split` with no arguments: tab, LF, VT, FF, CR, space. -/
def isWs (c : Nat) : Bool :=
  c == 9 || c == 10 || c == 11 || c == 12 || c == 13 || c == 32

/-- Model of `str.lower` on one code point, on the ASCII range. -/
def lowerChar (c : Nat) : Nat :=
  if 65 ≤ c ∧ c ≤ 90 then c + 32 else c

/-- Model of `str.lower` on a whole string (ASCII range). -/
def lowerStr (s : PyStr) : PyStr := s.map lowerChar

/-- Model of `str.strip`: drop leading and trailing whitespace. -/
def stripStr (s : PyStr) : PyStr :=
  (((s.dropWhile isWs).reverse.dropWhile isWs)).reverse

/-- Model of `str.split` with no arguments: split on runs of whitespace, returning
no empty words.  `acc` holds the reversed current word. -/
def splitWsAux (acc : PyStr) : PyStr → List PyStr
  | [] => if acc.isEmpty then [] else [acc.reverse]
  | c :: rest =>
    if isWs c then
      if acc.isEmpty then splitWsAux [] rest
      else acc.reverse :: splitWsAux [] rest
    else splitWsAux (c :: acc) rest

/-- Model of `str.split` with no arguments. -/
def splitWs (s : PyStr) : List PyStr := splitWsAux [] s

/-- Scan loop of `str.count`, the non-overlapping occurrence count, for a non-empty
pattern.  After a match the scan resumes past the matched text.  The
first argument is fuel bounding the number of scan steps; every step
consumes at least one character, so `s.length` fuel is always enough
(fuel only makes the recursion structural). -/
def countOccAux (pat : PyStr) : Nat → PyStr → Nat
  | 0, _ => 0
  | _, [] => 0
  | fuel + 1, c :: rest =>
    if pat.isPrefixOf (c :: rest) then
      1 + countOccAux pat fuel (rest.drop (pat.length - 1))
    else countOccAux pat fuel rest

/-- Python `str.count`: non-overlapping substring occurrences; an empty
pattern matches at every boundary, giving `length + 1`. -/
def countOcc (s pat : PyStr) : Nat :=
  if pat.isEmpty then s.length + 1 else countOccAux pat s.length s

/-- Python `str.find` returning the lowest index of an occurrence as
`some`, and `none` where Python returns `-1`. -/
def findSub (pat : PyStr) : PyStr → Option Nat
  | [] => if pat.isEmpty then some 0 else none
  | c :: rest =>
    if pat.isPrefixOf (c :: rest) then some 0
    else (findSub pat rest).map (· + 1)

/-- Minimum of a list of naturals, `none` on the empty list (the
`min(..., default=-1)` idiom with the `-1` case kept separate). -/
def minList : List Nat → Option Nat
  | [] => none
  | x :: xs =>
    match minList xs with
    | none => some x
    | some m => some (min x m)

/-! ## Data model -/

/-- One entry of the page-level index `_INDEX`:
a dict with keys file, page and text. -/
structure PageRecord where
  file : PyStr
  page : Nat
  text : PyStr
deriving DecidableEq, Repr

/-- One ranked keyword hit `(score, file, page, snippet)` as built in the
keyword branch of `search_pdfs`. -/
structure KwHit where
  score : Nat
  file : PyStr
  page : Nat
  snippet : PyStr
deriving DecidableEq, Repr

/-- A successful search result: the ranked hit list that the markdown
rendering presents.  Embedding-mode results carry the returned page
records (their float scores are abstracted away). -/
inductive SearchResult where
  | emb (hits : List PageRecord)
  | kw (hits : List KwHit)
deriving DecidableEq, Repr

/-- The module-level mutable state of `engine/rag_engine.py`:
`_INDEX`, `_INDEX_LOADED`, `_EMB_INDEX` (its page records; vectors are
abstracted), `_EMB_MODEL` (whether it is non-None), and the ghost counter
`modelLoads` of successful `SentenceTransformer(...)` constructions. -/
structure EngineState where
  index : List PageRecord
  indexLoaded : Bool
  embIndex : List PageRecord
  embModel : Bool
  modelLoads : Nat
deriving DecidableEq, Repr

/-- The state at module import time: `_INDEX = []`, `_INDEX_LOADED =
False`, `_EMB_INDEX = []`, `_EMB_MODEL = None`. -/
def initState : EngineState :=
  { index := [], indexLoaded := false, embIndex := [], embModel := false
    modelLoads := 0 }

/-- One PDF file as the extractor sees it: its base name, and `pages` is
`none` when `pdfplumber.open` raises (a corrupt file, skipped by the
`except: continue`), else the raw `page.extract_text() or ""` string of
each page in order. -/
structure PdfFile where
  name : PyStr
  pages : Option (List PyStr)
deriving DecidableEq, Repr

/-- A directory on disk as `index_pdfs` sees it: whether it exists, and
the files matching the `*.pdf` glob, in glob order.  A directory that
does not exist has no files. -/
structure Dir where
  dexists : Bool
  files : List PdfFile
deriving DecidableEq, Repr

/-- Import-time environment of the process.  `envUseEmb` is the raw
`LTA_USE_EMBEDDINGS == "1"` check (re-read inside `search_pdfs`),
`stImport` whether the `sentence_transformers` import would succeed,
`embEngine` whether `engine.embeddings_engine` imported.  `extSearch`
abstracts the external engine search (an empty list stands for a falsy
or raising call) and `embRank` the in-process cosine ranking over the
embedding index. -/
structure Env where
  pdfplumber : Bool
  envUseEmb : Bool
  stImport : Bool
  embEngine : Bool
  extSearch : PyStr → Nat → List PageRecord
  embRank : PyStr → Nat → List PageRecord → List PageRecord

/-- The module global `_USE_EMB`: the flag was set and the import
succeeded (the `except` branch resets it to `False`). -/
def Env.useEmb (e : Env) : Bool := e.envUseEmb && e.stImport

/-- The module global `_EMB_AVAILABLE`: identical condition. -/
def Env.embAvailable (e : Env) : Bool := e.envUseEmb && e.stImport

/-- Runtime nondeterminism of one call: whether the
`SentenceTransformer(...)` construction would succeed, and whether the
subsequent `encode` would succeed. -/
structure World where
  ctorOk : Bool
  encOk : Bool
deriving DecidableEq, Repr

/-! ## Ingestion: `index_pdfs` -/

/-- The page loop of `index_pdfs`: enumerate pages from 1, strip each
extracted text, and keep only pages whose stripped text is non-empty. -/
def pagesToRecords (name : PyStr) : Nat → List PyStr → List PageRecord
  | _, [] => []
  | i, p :: rest =>
    if (stripStr p).isEmpty then pagesToRecords name (i + 1) rest
    else { file := name, page := i, text := stripStr p }
      :: pagesToRecords name (i + 1) rest

/-- Extraction of one file: a corrupt file contributes nothing
(`except Exception: continue`). -/
def extractFile (f : PdfFile) : List PageRecord :=
  match f.pages with
  | none => []
  | some ps => pagesToRecords f.name 1 ps

/-- The `docs` list built over all globbed files, in order. -/
def extractDocs (files : List PdfFile) : List PageRecord :=
  (files.map extractFile).flatten

/-- The in-process embedding build at the end of `index_pdfs` (lines
79-89): only when `_USE_EMB and _EMB_AVAILABLE and not
_EMB_ENGINE_AVAILABLE`; loads the model once if `_EMB_MODEL is None`,
then recomputes `_EMB_INDEX` from the fresh index; a raising constructor
or encode leaves the touched globals as they were at the raise. -/
def applyEmbBuild (env : Env) (w : World) (docs : List PageRecord)
    (st : EngineState) : EngineState :=
  if env.useEmb && env.embAvailable && !env.embEngine then
    if st.embModel then
      if w.encOk then { st with embIndex := docs } else st
    else if w.ctorOk then
      let stm := { st with embModel := true, modelLoads := st.modelLoads + 1 }
      if w.encOk then { stm with embIndex := docs } else stm
    else st
  else st

/-- Model of `index_pdfs(dir_path)`: create the directory, fail only when
`pdfplumber` is absent, install an empty index for an empty directory,
else rebuild `_INDEX` wholesale from the extracted pages and run the
optional embedding builds.  The external engine build (lines 70-76)
mutates only the external persisted index, which is not part of this
state.  Returns the boolean result, the directory, and the new state. -/
def index_pdfs (env : Env) (w : World) (d : Dir) (st : EngineState) :
    Bool × Dir × EngineState :=
  let d' : Dir := { d with dexists := true }
  if !env.pdfplumber then (false, d', st)
  else if d.files.isEmpty then
    (true, d', { st with indexLoaded := true, index := [], embIndex := [] })
  else
    let docs := extractDocs d.files
    let st1 := { st with index := docs, indexLoaded := true }
    (true, d', applyEmbBuild env w docs st1)

/-- Model of `add_pdf(file_path)`: re-index the parent directory of the file. -/
def add_pdf (env : Env) (w : World) (parentDir : Dir) (st : EngineState) :
    Bool × Dir × EngineState :=
  index_pdfs env w parentDir st

/-- Model of `clear_index()`: empty both indices but mark the index as loaded. -/
def clear_index (st : EngineState) : EngineState :=
  { st with index := [], indexLoaded := true, embIndex := [] }

/-! ## Search -/

/-- The tokens of a query as computed at lines 165-166:
`q = query.lower().strip(); tokens = [t for t in q.split() if t]`. -/
def tokensOf (q : PyStr) : List PyStr :=
  (splitWs (stripStr (lowerStr q))).filter (fun t => !t.isEmpty)

/-- Per-page keyword score: `sum(txt.count(t) for t in tokens)`. -/
def keywordScore (tokens : List PyStr) (txt : PyStr) : Nat :=
  (tokens.map (fun t => countOcc txt t)).sum

/-- The snippet of one scoring page: from the least found position of any
token, 300 code points with newlines replaced by spaces; the
unreachable `first_pos = -1` default keeps the first 200 points. -/
def mkSnippet (text txt : PyStr) (tokens : List PyStr) : PyStr :=
  match minList (tokens.filterMap (fun t => findSub t txt)) with
  | some p => ((text.drop p).take 300).map (fun c => if c == 10 then 32 else c)
  | none => text.take 200

/-- The `scored` list of the keyword branch: every indexed page whose
score is positive, with its score and snippet, in index order. -/
def kwScored (index : List PageRecord) (tokens : List PyStr) : List KwHit :=
  index.filterMap (fun doc =>
    let txt := lowerStr doc.text
    let score := keywordScore tokens txt
    if score == 0 then none
    else some { score := score, file := doc.file, page := doc.page
                snippet := mkSnippet doc.text txt tokens })

/-- Stable descending insertion by score, matching the stable
`scored.sort(key=..., reverse=True)`. -/
def insertHit (x : KwHit) : List KwHit → List KwHit
  | [] => [x]
  | y :: ys => if x.score < y.score then y :: insertHit x ys else x :: y :: ys

/-- Stable sort of the scored list, descending by score. -/
def sortByScoreDesc : List KwHit → List KwHit
  | [] => []
  | x :: xs => insertHit x (sortByScoreDesc xs)

/-- The keyword branch of `search_pdfs` after the lazy-load step: empty
index, empty token list, or no positive-scoring page give no-result;
otherwise the top `top_k` of the stably sorted scored list. -/
def keyword_search (st : EngineState) (q : PyStr) (topk : Nat) :
    Option SearchResult :=
  if st.index.isEmpty then none
  else if (tokensOf q).isEmpty then none
  else if (kwScored st.index (tokensOf q)).isEmpty then none
  else some (.kw ((sortByScoreDesc (kwScored st.index (tokensOf q))).take topk))

/-- Model of `_emb_search(query, top_k)`: no-result on an empty embedding index or
unavailable runtime; otherwise uses `_EMB_MODEL` or constructs a fresh
model WITHOUT caching it (line 107), and any raise yields no-result. -/
def emb_search (env : Env) (w : World) (st : EngineState) (q : PyStr)
    (topk : Nat) : Option SearchResult × EngineState :=
  if st.embIndex.isEmpty || !env.embAvailable then (none, st)
  else if st.embModel then
    if w.encOk then (some (.emb (env.embRank q topk st.embIndex)), st)
    else (none, st)
  else if w.ctorOk then
    if w.encOk then
      (some (.emb (env.embRank q topk st.embIndex)),
        { st with modelLoads := st.modelLoads + 1 })
    else (none, { st with modelLoads := st.modelLoads + 1 })
  else (none, st)

/-- The `emb_res` of the external-engine attempt (lines 136-146): empty
when the engine module is unavailable, and otherwise whatever the engine
returns — with the empty list standing for a falsy or raising call,
either of which falls through to the next strategy. -/
def extResult (env : Env) (q : PyStr) (topk : Nat) : List PageRecord :=
  if env.embEngine then env.extSearch q topk else []

/-- Model of `search_pdfs(query, top_k)`: empty or whitespace query gives
no-result at once; with `LTA_USE_EMBEDDINGS == "1"` try the external
engine, then the in-process embedding search, and otherwise return
no-result WITHOUT falling back to keywords; with the flag off, lazily
build the default index if never loaded, then keyword-search.  Returns
the result, the new state, and the (possibly created) default
directory. -/
def search_pdfs (env : Env) (w : World) (defaultDir : Dir)
    (st : EngineState) (query : Option PyStr) (topk : Nat) :
    Option SearchResult × EngineState × Dir :=
  match query with
  | none => (none, st, defaultDir)
  | some q =>
    if q.isEmpty || (stripStr q).isEmpty then (none, st, defaultDir)
    else if env.envUseEmb then
      if !(extResult env q topk).isEmpty then
        (some (.emb (extResult env q topk)), st, defaultDir)
      else if env.useEmb && env.embAvailable then
        ((emb_search env w st q topk).1, (emb_search env w st q topk).2,
          defaultDir)
      else (none, st, defaultDir)
    else
      if !st.indexLoaded then
        if !(index_pdfs env w defaultDir st).1 then
          (none, (index_pdfs env w defaultDir st).2.2,
            (index_pdfs env w defaultDir st).2.1)
        else
          (keyword_search (index_pdfs env w defaultDir st).2.2 q topk,
            (index_pdfs env w defaultDir st).2.2,
            (index_pdfs env w defaultDir st).2.1)
      else (keyword_search st q topk, st, defaultDir)

/-! ## Operation traces

A process lifetime is a sequence of calls to the public operations from
the import-time state; the temporal claims quantify over these traces. -/

/-- One public operation call, with its runtime nondeterminism and the
directory contents it observes. -/
inductive Op where
  | indexOp (w : World) (d : Dir)
  | searchOp (w : World) (d : Dir) (q : Option PyStr) (k : Nat)
  | clearOp
  | addOp (w : World) (d : Dir)

/-- The state transition of one operation. -/
def runOp (env : Env) (st : EngineState) : Op → EngineState
  | .indexOp w d => (index_pdfs env w d st).2.2
  | .searchOp w d q k => (search_pdfs env w d st q k).2.1
  | .clearOp => clear_index st
  | .addOp w d => (add_pdf env w d st).2.2

/-- Run a trace of operations from a state. -/
def runOps (env : Env) (ops : List Op) (st : EngineState) : EngineState :=
  ops.foldl (runOp env) st

/-! ## Lemmas about the string model -/

lemma isWs_lowerChar (c : Nat) : isWs (lowerChar c) = isWs c := by
  unfold lowerChar
  split
  · rename_i h
    have l : isWs (c + 32) = false := by
      simp only [isWs, Bool.or_eq_false_iff, beq_eq_false_iff_ne, ne_eq]
      omega
    have r : isWs c = false := by
      simp only [isWs, Bool.or_eq_false_iff, beq_eq_false_iff_ne, ne_eq]
      omega
    rw [l, r]
  · rfl

lemma all_isWs_lowerStr (s : PyStr) : (lowerStr s).all isWs = s.all isWs := by
  induction s with
  | nil => rfl
  | cons c cs ih =>
    unfold lowerStr at ih ⊢
    simp only [List.map_cons, List.all_cons, isWs_lowerChar, ih]

lemma length_lowerStr (s : PyStr) : (lowerStr s).length = s.length := by
  simp [lowerStr]

lemma dropWhile_cons_not (p : Nat → Bool) :
    ∀ (s : PyStr) (c : Nat) (r : PyStr), s.dropWhile p = c :: r → p c = false := by
  intro s
  induction s with
  | nil => intro c r h; simp [List.dropWhile] at h
  | cons a as ih =>
    intro c r h
    rw [List.dropWhile_cons] at h
    split at h
    · exact ih c r h
    · rename_i hp
      cases h
      simpa using hp

lemma stripStr_eq_nil_iff (s : PyStr) : stripStr s = [] ↔ s.all isWs = true := by
  unfold stripStr
  constructor
  · intro h
    rw [List.reverse_eq_nil_iff, List.dropWhile_eq_nil_iff] at h
    cases hd : s.dropWhile isWs with
    | nil =>
      rw [List.dropWhile_eq_nil_iff] at hd
      rw [List.all_eq_true]
      exact hd
    | cons c r =>
      exfalso
      have hc : isWs c = false := dropWhile_cons_not isWs s c r hd
      have hmem : isWs c = true := by
        refine h c ?_
        rw [hd]
        simp
      rw [hc] at hmem
      exact Bool.false_ne_true hmem
  · intro h
    have hnil : s.dropWhile isWs = [] := by
      rw [List.dropWhile_eq_nil_iff]
      rw [List.all_eq_true] at h
      exact h
    rw [hnil]
    rfl

lemma stripStr_not_all_ws (s : PyStr) (h : ¬ stripStr s = []) :
    (stripStr s).all isWs = false := by
  cases hm : (s.dropWhile isWs).reverse.dropWhile isWs with
  | nil =>
    exfalso
    apply h
    unfold stripStr
    rw [hm]
    rfl
  | cons c r =>
    have hc : isWs c = false := dropWhile_cons_not isWs _ c r hm
    have hmem : c ∈ stripStr s := by
      unfold stripStr
      rw [hm]
      simp
    cases hall : (stripStr s).all isWs with
    | false => rfl
    | true =>
      exfalso
      have := List.all_eq_true.mp hall c hmem
      rw [hc] at this
      exact Bool.false_ne_true this

/-! ## Lemmas about the ranked hit list -/

lemma mem_insertHit (a x : KwHit) :
    ∀ l : List KwHit, a ∈ insertHit x l ↔ a = x ∨ a ∈ l := by
  intro l
  induction l with
  | nil => simp [insertHit]
  | cons y ys ih =>
    unfold insertHit
    split
    · simp only [List.mem_cons, ih]
      tauto
    · simp only [List.mem_cons]

lemma mem_sortByScoreDesc (a : KwHit) :
    ∀ l : List KwHit, a ∈ sortByScoreDesc l ↔ a ∈ l := by
  intro l
  induction l with
  | nil => simp [sortByScoreDesc]
  | cons x xs ih => simp [sortByScoreDesc, mem_insertHit, ih]

/-! ## Concrete fixtures used by witnesses and counterexamples -/

/-- Keyword-mode environment: pdfplumber present, embeddings off. -/
def envKw : Env :=
  { pdfplumber := true, envUseEmb := false, stImport := false
    embEngine := false, extSearch := fun _ _ => []
    embRank := fun _ _ l => l }

/-- Embeddings flag on but no usable strategy: neither the external
engine module nor the embedding runtime could be loaded. -/
def envEmbBroken : Env :=
  { pdfplumber := true, envUseEmb := true, stImport := false
    embEngine := false, extSearch := fun _ _ => []
    embRank := fun _ _ l => l }

/-- A run in which constructor and encode would succeed. -/
def w0 : World := { ctorOk := true, encOk := true }

/-- An existing empty default directory. -/
def d0 : Dir := { dexists := true, files := [] }

/-- The end-to-end corpus page of the spec scenario. -/
def recMurder : PageRecord :=
  { file := pstr "law.pdf", page := 1
    text := pstr "IPC Section 302 prescribes punishment for murder." }

/-- An indexed state holding only the murder page. -/
def stMurder : EngineState :=
  { index := [recMurder], indexLoaded := true, embIndex := []
    embModel := false, modelLoads := 0 }

/-- An indexed state whose only page contains the punctuation run. -/
def stBang : EngineState :=
  { index := [{ file := pstr "b.pdf", page := 1
                text := pstr "wat!!! indeed" }]
    indexLoaded := true, embIndex := [], embModel := false, modelLoads := 0 }

/-! ## Claim theorems -/

/-- C2: for every directory, `index_pdfs` first creates the directory
(the returned directory exists) and its boolean result is exactly the
availability of the PDF-text-extraction capability: `true` whenever
`pdfplumber` is importable — including over a directory with zero PDF
files, which installs a valid empty index — and `false` only when that
capability is absent. -/
theorem c2_index_result_and_dir (env : Env) (w : World) (d : Dir)
    (st : EngineState) :
    (index_pdfs env w d st).1 = env.pdfplumber ∧
      ((index_pdfs env w d st).2.1).dexists = true := by
  unfold index_pdfs
  cases hp : env.pdfplumber <;> cases hf : d.files <;> simp [hp, hf]

/-- C9: calling `search_pdfs` with a `None`, empty, or whitespace-only
query returns no-result, whatever the index state and whatever the
embeddings configuration; the model is a total function, which captures
that no exception is raised on this path. -/
theorem c9_trivial_query_none (env : Env) (w : World) (d : Dir)
    (st : EngineState) (k : Nat) (q : Option PyStr)
    (h : q = none ∨ q = some [] ∨ ∃ s, q = some s ∧ s.all isWs = true) :
    (search_pdfs env w d st q k).1 = none := by
  rcases h with h | h | ⟨s, h, hws⟩
  · rw [h]; rfl
  · rw [h]; rfl
  · rw [h]
    have hs : stripStr s = [] := (stripStr_eq_nil_iff s).mpr hws
    simp [search_pdfs, hs]

/-- Witness for C9 at the concrete `None` query. -/
theorem c9_trivial_query_none_witness :
    (search_pdfs envKw w0 d0 stMurder none 3).1 = none :=
  c9_trivial_query_none envKw w0 d0 stMurder 3 none (Or.inl rfl)

/-- C10: after `clear_index`, a keyword-mode `search_pdfs` call returns
no-result for every query and leaves both the engine state and the
default corpus directory untouched: `clear_index` marks the index as
loaded while emptying it, so no lazy re-index happens and the index
stays empty until `index_pdfs` or `add_pdf` is called explicitly. -/
theorem c10_clear_then_search_none (env : Env) (w : World) (d : Dir)
    (st : EngineState) (q : Option PyStr) (k : Nat)
    (h : env.envUseEmb = false) :
    search_pdfs env w d (clear_index st) q k = (none, clear_index st, d) := by
  cases q with
  | none => rfl
  | some s =>
    unfold search_pdfs
    split
    · rfl
    · rw [h]
      simp [clear_index, keyword_search]

/-- Witness for C10 at the concrete cleared state and spec query. -/
theorem c10_clear_then_search_none_witness :
    search_pdfs envKw w0 d0 (clear_index stMurder) (some (pstr "murder")) 3
      = (none, clear_index stMurder, d0) :=
  c10_clear_then_search_none envKw w0 d0 stMurder (some (pstr "murder")) 3 rfl

/-- C1: with the embeddings flag enabled but no usable embedding strategy
(external engine absent, embedding runtime unavailable), `search_pdfs`
returns no-result for every query, state and `top_k` — even when the same
query over the same state in keyword mode (flag off) returns hits; the
keyword strategy is never substituted. -/
theorem c1_embeddings_gate (env : Env) (w : World) (d : Dir)
    (st : EngineState) (q : PyStr) (k : Nat)
    (hu : env.envUseEmb = true) (he : env.embEngine = false)
    (hi : env.embAvailable = false)
    (hkw : (search_pdfs { env with envUseEmb := false } w d st (some q) k).1
      ≠ none) :
    (search_pdfs env w d st (some q) k).1 = none := by
  have hext : extResult env q k = [] := by
    unfold extResult
    rw [he]
    simp
  simp only [search_pdfs, hu, hext, hi]
  simp

/-- Witness for C1: concrete broken-embeddings environment over the
murder corpus; the keyword run returns a hit, the gated run none. -/
theorem c1_embeddings_gate_witness :
    ((search_pdfs { envEmbBroken with envUseEmb := false } w0 d0 stMurder
        (some (pstr "murder")) 3).1 ≠ none) ∧
      (search_pdfs envEmbBroken w0 d0 stMurder (some (pstr "murder")) 3).1
        = none :=
  ⟨by decide,
    c1_embeddings_gate envEmbBroken w0 d0 stMurder (pstr "murder") 3
      rfl rfl rfl (by decide)⟩

/-- C5 as stated is false at a concrete input: the punctuation-only query
is not tokenized to an empty list — over a page containing the
punctuation run, keyword search returns a hit instead of no-result. -/
theorem c5_counterexample :
    (search_pdfs envKw w0 d0 stBang (some (pstr "!!!")) 3).1 ≠ none := by
  decide

/-- C5 amended: every query consisting only of whitespace (or empty)
yields no-result — the empty/whitespace guard fires before tokenization;
a punctuation-only query instead becomes an ordinary token and is
matched by substring counting. -/
theorem c5_whitespace_query_none (env : Env) (w : World) (d : Dir)
    (st : EngineState) (q : PyStr) (k : Nat) (hws : q.all isWs = true) :
    (search_pdfs env w d st (some q) k).1 = none := by
  have hs : stripStr q = [] := (stripStr_eq_nil_iff q).mpr hws
  simp [search_pdfs, hs]

/-- Witness for the amended C5 at a concrete whitespace query. -/
theorem c5_whitespace_query_none_witness :
    ((pstr "   ").all isWs = true) ∧
      (search_pdfs envKw w0 d0 stMurder (some (pstr "   ")) 3).1 = none :=
  ⟨by decide,
    c5_whitespace_query_none envKw w0 d0 stMurder (pstr "   ") 3 (by decide)⟩

/-- C4: in keyword mode with a loaded index, every hit that `search_pdfs`
returns carries a strictly positive score equal to the sum over query
tokens of the substring occurrence counts in the lowercased text of some
indexed page with that file and page number (pages scoring 0 never
appear); consequently, for a fixed single-token query, a page containing
the token 3 times scores strictly higher than one containing it once. -/
theorem c4_keyword_scoring (env : Env) (w : World) (d : Dir)
    (st : EngineState) (q : PyStr) (k : Nat) (hits : List KwHit)
    (hkw : env.envUseEmb = false) (hl : st.indexLoaded = true)
    (hres : (search_pdfs env w d st (some q) k).1 = some (.kw hits)) :
    (∀ h ∈ hits, 0 < h.score ∧ ∃ doc ∈ st.index, h.file = doc.file ∧
        h.page = doc.page ∧
        h.score = keywordScore (tokensOf q) (lowerStr doc.text)) ∧
    (∀ (t : PyStr) (d1 d2 : PageRecord),
        countOcc (lowerStr d1.text) t = 3 →
        countOcc (lowerStr d2.text) t = 1 →
        keywordScore [t] (lowerStr d2.text)
          < keywordScore [t] (lowerStr d1.text)) := by
  constructor
  · intro h hmem
    simp only [search_pdfs, hkw, hl, Bool.false_eq_true, if_false,
      Bool.not_true] at hres
    split at hres
    · simp at hres
    · unfold keyword_search at hres
      split at hres
      · simp at hres
      · split at hres
        · simp at hres
        · split at hres
          · simp at hres
          · simp only [Option.some_inj, SearchResult.kw.injEq] at hres
            rw [← hres] at hmem
            have h1 : h ∈ sortByScoreDesc (kwScored st.index (tokensOf q)) :=
              List.mem_of_mem_take hmem
            have h2 : h ∈ kwScored st.index (tokensOf q) :=
              (mem_sortByScoreDesc h _).mp h1
            unfold kwScored at h2
            rw [List.mem_filterMap] at h2
            obtain ⟨doc, hdoc, heq⟩ := h2
            simp only at heq
            split at heq
            · exact absurd heq (by simp)
            · rename_i hscore
              rw [Option.some_inj] at heq
              have hpos : 0 < keywordScore (tokensOf q) (lowerStr doc.text) := by
                rcases Nat.eq_zero_or_pos
                  (keywordScore (tokensOf q) (lowerStr doc.text)) with h0 | hp
                · rw [h0] at hscore; simp at hscore
                · exact hp
              subst heq
              exact ⟨hpos, doc, hdoc, rfl, rfl, rfl⟩
  · intro t d1 d2 h3 h1
    unfold keywordScore
    simp only [List.map_cons, List.map_nil, List.sum_cons, List.sum_nil,
      Nat.add_zero]
    rw [h3, h1]
    omega

/-- The concrete hit list of the witness scenario: the single murder page
with score 1 and the snippet starting at the match. -/
def c4hits : List KwHit :=
  [{ score := 1, file := pstr "law.pdf", page := 1
     snippet := pstr "murder." }]

/-- Witness for C4: the spec scenario corpus, query `"murder"`. -/
theorem c4_keyword_scoring_witness :
    (envKw.envUseEmb = false) ∧ (stMurder.indexLoaded = true) ∧
      ((search_pdfs envKw w0 d0 stMurder (some (pstr "murder")) 3).1
        = some (.kw c4hits)) ∧
      ((∀ h ∈ c4hits, 0 < h.score ∧ ∃ doc ∈ stMurder.index,
          h.file = doc.file ∧ h.page = doc.page ∧
          h.score = keywordScore (tokensOf (pstr "murder"))
            (lowerStr doc.text)) ∧
        (∀ (t : PyStr) (d1 d2 : PageRecord),
          countOcc (lowerStr d1.text) t = 3 →
          countOcc (lowerStr d2.text) t = 1 →
          keywordScore [t] (lowerStr d2.text)
            < keywordScore [t] (lowerStr d1.text))) :=
  ⟨rfl, rfl, by decide,
    c4_keyword_scoring envKw w0 d0 stMurder (pstr "murder") 3 c4hits
      rfl rfl (by decide)⟩

/-- C8: keyword search is case-insensitive — two queries with the same
lowercasing produce identical results (same hits, same scores, same
ranking) and identical final states, over every corpus state. -/
theorem c8_case_insensitive (env : Env) (w : World) (d : Dir)
    (st : EngineState) (q1 q2 : PyStr) (k : Nat)
    (hkw : env.envUseEmb = false) (hlow : lowerStr q1 = lowerStr q2) :
    search_pdfs env w d st (some q1) k = search_pdfs env w d st (some q2) k := by
  have hlen : q1.length = q2.length := by
    rw [← length_lowerStr q1, ← length_lowerStr q2, hlow]
  have hEmpty : q1.isEmpty = q2.isEmpty := by
    rw [Bool.eq_iff_iff, List.isEmpty_iff_length_eq_zero,
      List.isEmpty_iff_length_eq_zero, hlen]
  have hAll : q1.all isWs = q2.all isWs := by
    rw [← all_isWs_lowerStr q1, ← all_isWs_lowerStr q2, hlow]
  have hStrip : (stripStr q1).isEmpty = (stripStr q2).isEmpty := by
    rw [Bool.eq_iff_iff]
    simp only [List.isEmpty_iff, stripStr_eq_nil_iff, hAll]
  have hTok : tokensOf q1 = tokensOf q2 := by
    unfold tokensOf
    rw [hlow]
  have hks : ∀ (s : EngineState) (n : Nat),
      keyword_search s q1 n = keyword_search s q2 n := by
    intro s n
    unfold keyword_search
    rw [hTok]
  simp only [search_pdfs]
  rw [hEmpty, hStrip, hkw]
  simp only [Bool.false_eq_true, if_false]
  split
  · rfl
  · split
    · rw [hks]
    · rw [hks]

/-- Witness for C8: `"MURDER"` and `"murder"` over the spec corpus. -/
theorem c8_case_insensitive_witness :
    (lowerStr (pstr "MURDER") = lowerStr (pstr "murder")) ∧
      search_pdfs envKw w0 d0 stMurder (some (pstr "MURDER")) 3
        = search_pdfs envKw w0 d0 stMurder (some (pstr "murder")) 3 :=
  ⟨by decide,
    c8_case_insensitive envKw w0 d0 stMurder (pstr "MURDER") (pstr "murder") 3
      rfl (by decide)⟩

/-! ## Lemmas about the embedding build step -/

lemma applyEmbBuild_index (env : Env) (w : World) (docs : List PageRecord)
    (s : EngineState) : (applyEmbBuild env w docs s).index = s.index := by
  unfold applyEmbBuild
  repeat' split
  all_goals rfl

lemma applyEmbBuild_indexLoaded (env : Env) (w : World)
    (docs : List PageRecord) (s : EngineState) :
    (applyEmbBuild env w docs s).indexLoaded = s.indexLoaded := by
  unfold applyEmbBuild
  repeat' split
  all_goals rfl

lemma applyEmbBuild_idem (env : Env) (w : World) (docs : List PageRecord)
    (s : EngineState) :
    applyEmbBuild env w docs (applyEmbBuild env w docs s)
      = applyEmbBuild env w docs s := by
  cases s with
  | mk i il ei em ml =>
    unfold applyEmbBuild
    cases hc : (env.useEmb && env.embAvailable && !env.embEngine) <;>
      cases em <;> cases hC : w.ctorOk <;> cases hE : w.encOk <;>
        simp [hc, hC, hE]

lemma engineState_update_self (A : EngineState) (docs : List PageRecord)
    (h1 : A.index = docs) (h2 : A.indexLoaded = true) :
    { A with index := docs, indexLoaded := true } = A := by
  cases A
  simp only at h1 h2
  simp [h1, h2]

/-- C3: indexing is an idempotent wholesale rebuild — re-running
`index_pdfs` on the unchanged directory reproduces the entire
output of the first call (result, directory and state: the record set is replaced,
not appended), so every query gives identical results after either
pass. -/
theorem c3_index_idempotent (env : Env) (w : World) (d : Dir)
    (st : EngineState) :
    (index_pdfs env w (index_pdfs env w d st).2.1 (index_pdfs env w d st).2.2
        = index_pdfs env w d st) ∧
      ∀ (q : Option PyStr) (k : Nat),
        search_pdfs env w (index_pdfs env w d st).2.1
            (index_pdfs env w (index_pdfs env w d st).2.1
              (index_pdfs env w d st).2.2).2.2 q k
          = search_pdfs env w (index_pdfs env w d st).2.1
              (index_pdfs env w d st).2.2 q k := by
  have hmain : index_pdfs env w (index_pdfs env w d st).2.1
      (index_pdfs env w d st).2.2 = index_pdfs env w d st := by
    cases d with
    | mk de files =>
      cases hp : env.pdfplumber with
      | false => simp [index_pdfs, hp]
      | true =>
        cases files with
        | nil => simp [index_pdfs, hp]
        | cons f fs =>
          simp only [index_pdfs, hp, Bool.not_true, Bool.false_eq_true,
            if_false, List.isEmpty_cons]
          rw [engineState_update_self, applyEmbBuild_idem]
          · rw [applyEmbBuild_index]
          · rw [applyEmbBuild_indexLoaded]
  exact ⟨hmain, fun q k => by rw [hmain]⟩

/-! ## The memoization invariant (C6) -/

/-- Reachable-state invariant tying the cached model to the load counter:
a cached model was loaded exactly once, and with no cached model nothing
was ever loaded and the embedding index is still empty. -/
def LoadInv (s : EngineState) : Prop :=
  (s.embModel = true → s.modelLoads = 1) ∧
  (s.embModel = false → s.modelLoads = 0 ∧ s.embIndex = [])

lemma loadInv_init : LoadInv initState := by
  constructor
  · intro hm
    simp [initState] at hm
  · intro _
    exact ⟨rfl, rfl⟩

lemma loadInv_applyEmbBuild (env : Env) (w : World) (docs : List PageRecord)
    (s : EngineState) (h : LoadInv s) :
    LoadInv (applyEmbBuild env w docs s) := by
  cases s with
  | mk i il ei em ml =>
    unfold LoadInv applyEmbBuild at *
    cases em <;> cases hC : w.ctorOk <;> cases hE : w.encOk <;>
      cases hc : (env.useEmb && env.embAvailable && !env.embEngine) <;>
        simp_all

lemma loadInv_index (env : Env) (w : World) (d : Dir) (st : EngineState)
    (h : LoadInv st) : LoadInv (index_pdfs env w d st).2.2 := by
  unfold index_pdfs
  split
  · exact h
  · split
    · exact ⟨h.1, fun hm => ⟨(h.2 hm).1, rfl⟩⟩
    · exact loadInv_applyEmbBuild env w _ _ ⟨h.1, h.2⟩

lemma loadInv_search (env : Env) (w : World) (d : Dir) (st : EngineState)
    (q : Option PyStr) (k : Nat) (h : LoadInv st) :
    LoadInv (search_pdfs env w d st q k).2.1 := by
  cases q with
  | none => exact h
  | some s =>
    simp only [search_pdfs]
    split
    · exact h
    · split
      · split
        · exact h
        · split
          · unfold emb_search
            split
            · exact h
            · rename_i hg
              split
              · split
                · exact h
                · exact h
              · split
                · rename_i hm hC
                  exfalso
                  rw [Bool.not_eq_true] at hm
                  have hei : st.embIndex = [] := (h.2 hm).2
                  apply hg
                  rw [hei]
                  simp
                · exact h
          · exact h
      · split
        · split
          · exact loadInv_index env w d st h
          · exact loadInv_index env w d st h
        · exact h

lemma loadInv_runOp (env : Env) (st : EngineState) (op : Op)
    (h : LoadInv st) : LoadInv (runOp env st op) := by
  cases op with
  | indexOp w d => exact loadInv_index env w d st h
  | searchOp w d q k => exact loadInv_search env w d st q k h
  | clearOp => exact ⟨h.1, fun hm => ⟨(h.2 hm).1, rfl⟩⟩
  | addOp w d => exact loadInv_index env w d st h

lemma loadInv_runOps (env : Env) (ops : List Op) :
    ∀ st : EngineState, LoadInv st → LoadInv (runOps env ops st) := by
  induction ops with
  | nil => exact fun st h => h
  | cons op rest ih =>
    intro st h
    exact ih _ (loadInv_runOp env st op h)

/-- C6: across every sequence of indexing and search operations of one
process lifetime, the `SentenceTransformer` embedding model is
constructed at most once — the first successful construction is cached
in `_EMB_MODEL` and every later build or embedding search reuses it. -/
theorem c6_model_loaded_once (env : Env) (ops : List Op) :
    (runOps env ops initState).modelLoads ≤ 1 := by
  have h := loadInv_runOps env ops initState loadInv_init
  cases hm : (runOps env ops initState).embModel with
  | false => rw [(h.2 hm).1]; omega
  | true => rw [h.1 hm]

/-! ## The stored-text invariant (C7) -/

/-- A stored page text is acceptable: non-empty and not whitespace-only. -/
def TextOk (t : PyStr) : Prop := t ≠ [] ∧ t.all isWs = false

/-- Invariant of the index state: every stored record has acceptable
text. -/
def IndexInv (s : EngineState) : Prop := ∀ r ∈ s.index, TextOk r.text

lemma textOk_stripStr (p : PyStr) (h : ¬ stripStr p = []) :
    TextOk (stripStr p) :=
  ⟨h, stripStr_not_all_ws p h⟩

lemma pagesToRecords_textOk (name : PyStr) :
    ∀ (ps : List PyStr) (i : Nat) (r : PageRecord),
      r ∈ pagesToRecords name i ps → TextOk r.text := by
  intro ps
  induction ps with
  | nil =>
    intro i r hr
    simp [pagesToRecords] at hr
  | cons p rest ih =>
    intro i r hr
    unfold pagesToRecords at hr
    split at hr
    · exact ih (i + 1) r hr
    · rename_i hne
      rcases List.mem_cons.mp hr with hr | hr
      · subst hr
        exact textOk_stripStr p (by simpa [List.isEmpty_iff] using hne)
      · exact ih (i + 1) r hr

lemma extractDocs_textOk (files : List PdfFile) (r : PageRecord)
    (hr : r ∈ extractDocs files) : TextOk r.text := by
  unfold extractDocs at hr
  rw [List.mem_flatten] at hr
  obtain ⟨l, hl, hrl⟩ := hr
  rw [List.mem_map] at hl
  obtain ⟨f, _, hfl⟩ := hl
  subst hfl
  unfold extractFile at hrl
  cases hpg : f.pages with
  | none => rw [hpg] at hrl; simp at hrl
  | some ps =>
    rw [hpg] at hrl
    exact pagesToRecords_textOk f.name ps 1 r hrl

lemma indexInv_index (env : Env) (w : World) (d : Dir) (st : EngineState)
    (h : IndexInv st) : IndexInv (index_pdfs env w d st).2.2 := by
  unfold index_pdfs
  split
  · exact h
  · split
    · intro r hr
      simp at hr
    · intro r hr
      rw [applyEmbBuild_index] at hr
      exact extractDocs_textOk d.files r hr

lemma indexInv_search (env : Env) (w : World) (d : Dir) (st : EngineState)
    (q : Option PyStr) (k : Nat) (h : IndexInv st) :
    IndexInv (search_pdfs env w d st q k).2.1 := by
  cases q with
  | none => exact h
  | some s =>
    simp only [search_pdfs]
    split
    · exact h
    · split
      · split
        · exact h
        · split
          · unfold emb_search
            split
            · exact h
            · split
              · split
                · exact h
                · exact h
              · split
                · split
                  · exact h
                  · exact h
                · exact h
          · exact h
      · split
        · split
          · exact indexInv_index env w d st h
          · exact indexInv_index env w d st h
        · exact h

lemma indexInv_runOp (env : Env) (st : EngineState) (op : Op)
    (h : IndexInv st) : IndexInv (runOp env st op) := by
  cases op with
  | indexOp w d => exact indexInv_index env w d st h
  | searchOp w d q k => exact indexInv_search env w d st q k h
  | clearOp => intro r hr; simp [runOp, clear_index] at hr
  | addOp w d => exact indexInv_index env w d st h

lemma indexInv_runOps (env : Env) (ops : List Op) :
    ∀ st : EngineState, IndexInv st → IndexInv (runOps env ops st) := by
  induction ops with
  | nil => exact fun st h => h
  | cons op rest ih =>
    intro st h
    exact ih _ (indexInv_runOp env st op h)

/-- C7: after any sequence of public operations from the import-time
state, every record held by the page index has non-empty text that is
not whitespace-only — empty pages are dropped at ingestion and every
operation preserves the invariant. -/
theorem c7_index_text_invariant (env : Env) (ops : List Op)
    (r : PageRecord) (hr : r ∈ (runOps env ops initState).index) :
    r.text ≠ [] ∧ r.text.all isWs = false := by
  have h : IndexInv (runOps env ops initState) := by
    apply indexInv_runOps
    intro r hr
    simp [initState] at hr
  exact h r hr

/-- One well-formed PDF fixture file with a padded page. -/
def fileA : PdfFile :=
  { name := pstr "a.pdf", pages := some [pstr " hello world "] }

/-- A directory holding only that file. -/
def dA : Dir := { dexists := true, files := [fileA] }

/-- The record the indexing pass stores for it. -/
def recA : PageRecord :=
  { file := pstr "a.pdf", page := 1, text := pstr "hello world" }

/-- Witness for C7: one indexing trace over the fixture directory. -/
theorem c7_index_text_invariant_witness :
    (recA ∈ (runOps envKw [Op.indexOp w0 dA] initState).index) ∧
      (recA.text ≠ [] ∧ recA.text.all isWs = false) :=
  ⟨by decide,
    c7_index_text_invariant envKw [Op.indexOp w0 dA] recA (by decide)⟩
